import Mathlib

/-!
Shallow embedding of the audit-logging subsystem of
`security/compliance/audit_logger.py` (enums, `AuditEvent`,
`AuditFilter`, the two storage backends and `AuditLogger`), together
with theorems settling the frozen claims about that module.

Modelling conventions, stated once here:
* Python `datetime` values are modelled as natural numbers (a UTC
  instant, e.g. microseconds since the epoch); `isoformat` is modelled
  by an injective decimal rendering to a string and `fromisoformat` by
  its parsing inverse.  ISO-8601 strings produced by `isoformat`
  compare lexicographically exactly as the instants compare
  chronologically, so SQL string comparisons on the stored timestamp
  column are modelled by the order on the naturals.
* Python `set` objects carry an unspecified iteration order; the model
  makes that order explicit as a duplicate-free list, with `set.add`
  appending a new element and membership tests ignoring the order.
* `dict` payloads under the open-ended `details` field are restricted
  to flat JSON scalars; the claims only ever require the details
  mapping to be JSON-representable.
* I/O failure (bad disk, lock contention, SQL errors) is injected
  through explicit boolean fault oracles; a Python `try/except` body
  is modelled as an `Except`-valued function and the handler as the
  total function that maps its errors to the fallback value.
-/

namespace AuditLog

/-- Audit event severity levels (`AuditLevel`). -/
inductive AuditLevel where
  | debug | info | warning | error | critical | security | compliance
deriving DecidableEq, Repr

/-- String tag of an `AuditLevel`, as in the Python enum's `.value`. -/
def AuditLevel.value : AuditLevel → String
  | .debug => "debug"
  | .info => "info"
  | .warning => "warning"
  | .error => "error"
  | .critical => "critical"
  | .security => "security"
  | .compliance => "compliance"

/-- Categories of audit events (`AuditCategory`). -/
inductive AuditCategory where
  | authentication | authorization | data_access | data_modification
  | system_configuration | user_management | security_event | compliance_event
  | business_process | network_activity | file_system | database
  | api_call | performance | error_event
deriving DecidableEq, Repr

/-- String tag of an `AuditCategory`. -/
def AuditCategory.value : AuditCategory → String
  | .authentication => "authentication"
  | .authorization => "authorization"
  | .data_access => "data_access"
  | .data_modification => "data_modification"
  | .system_configuration => "system_configuration"
  | .user_management => "user_management"
  | .security_event => "security_event"
  | .compliance_event => "compliance_event"
  | .business_process => "business_process"
  | .network_activity => "network_activity"
  | .file_system => "file_system"
  | .database => "database"
  | .api_call => "api_call"
  | .performance => "performance"
  | .error_event => "error_event"

/-- Types of actions being audited (`AuditAction`). -/
inductive AuditAction where
  | create | read | update | delete | login | logout
  | access_granted | access_denied | permission_changed | configuration_changed
  | password_changed | account_locked | account_unlocked | backup_created
  | backup_restored | system_startup | system_shutdown | export | imp
  | approve | reject
deriving DecidableEq, Repr

/-- String tag of an `AuditAction` (`imp` models Python's `IMPORT`,
whose tag is "import"; `import` is a Lean keyword). -/
def AuditAction.value : AuditAction → String
  | .create => "create"
  | .read => "read"
  | .update => "update"
  | .delete => "delete"
  | .login => "login"
  | .logout => "logout"
  | .access_granted => "access_granted"
  | .access_denied => "access_denied"
  | .permission_changed => "permission_changed"
  | .configuration_changed => "configuration_changed"
  | .password_changed => "password_changed"
  | .account_locked => "account_locked"
  | .account_unlocked => "account_unlocked"
  | .backup_created => "backup_created"
  | .backup_restored => "backup_restored"
  | .system_startup => "system_startup"
  | .system_shutdown => "system_shutdown"
  | .export => "export"
  | .imp => "import"
  | .approve => "approve"
  | .reject => "reject"

/-- Compliance frameworks requiring audit trails (`ComplianceFramework`). -/
inductive ComplianceFramework where
  | sox | gdpr | hipaa | pci_dss | iso27001 | soc2 | fisma | nist | cobit
deriving DecidableEq, Repr

/-- String tag of a `ComplianceFramework`. -/
def ComplianceFramework.value : ComplianceFramework → String
  | .sox => "sox"
  | .gdpr => "gdpr"
  | .hipaa => "hipaa"
  | .pci_dss => "pci_dss"
  | .iso27001 => "iso27001"
  | .soc2 => "soc2"
  | .fisma => "fisma"
  | .nist => "nist"
  | .cobit => "cobit"

/-- Flat JSON scalar, the model of a value stored in the open-ended
`details` mapping of an event. -/
inductive JsonPrim where
  | jNull : JsonPrim
  | jBool (b : Bool) : JsonPrim
  | jInt (n : Int) : JsonPrim
  | jStr (s : String) : JsonPrim
deriving DecidableEq, Repr

/-- One audit occurrence (`AuditEvent`, a frozen-after-construction
dataclass).  `compliance_frameworks` is a Python set whose iteration
order is made explicit as a list; `timestamp` is a UTC instant. -/
structure AuditEvent where
  event_id : String
  timestamp : Nat
  level : AuditLevel
  category : AuditCategory
  action : AuditAction
  actor : String
  target : String
  result : String
  message : String
  details : List (String × JsonPrim) := []
  source_ip : Option String := none
  user_agent : Option String := none
  session_id : Option String := none
  correlation_id : Option String := none
  compliance_frameworks : List ComplianceFramework := []
  risk_score : Int := 0
  sensitive_data : Bool := false
deriving DecidableEq, Repr

/-- Python `set.add` on a set represented by its iteration order:
adding a present element is a no-op, adding a new one appends it. -/
def fwAdd (s : List ComplianceFramework) (f : ComplianceFramework) :
    List ComplianceFramework :=
  if f ∈ s then s else s ++ [f]

/-- Python `set.update`: add each element in turn. -/
def fwUpdate (s : List ComplianceFramework) (fs : List ComplianceFramework) :
    List ComplianceFramework :=
  fs.foldl fwAdd s

/-- Whether the character list `needle` occurs at the start of `hay`. -/
def charsLead : List Char → List Char → Bool
  | [], _ => true
  | _ :: _, [] => false
  | a :: as, b :: bs => a == b && charsLead as bs

/-- Whether `needle` occurs contiguously anywhere in `hay` (Python's
`needle in hay` on strings, over explicit character lists). -/
def charsContain (hay needle : List Char) : Bool :=
  match hay with
  | [] => needle.isEmpty
  | _ :: t => charsLead needle hay || charsContain t needle

/-- Python `needle in hay` for strings. -/
def strContains (hay needle : String) : Bool :=
  charsContain hay.toList needle.toList

/-- Python `str.lower`: lower-case each character. -/
def strLower (s : String) : String := String.mk (s.toList.map Char.toLower)

/-- First step of `_assign_compliance_frameworks`: GDPR for any data
access or modification. -/
def fwGdprStep (category : AuditCategory) (s : List ComplianceFramework) :
    List ComplianceFramework :=
  if category = .data_access ∨ category = .data_modification then
    fwAdd s .gdpr else s

/-- Second step: SOX for financial targets and system configuration. -/
def fwSoxStep (category : AuditCategory) (target : String)
    (s : List ComplianceFramework) : List ComplianceFramework :=
  if strContains (strLower target) "financial" = true ∨
      category = .system_configuration then fwAdd s .sox else s

/-- Third step: security events apply to ISO27001, SOC2 and NIST. -/
def fwSecurityStep (category : AuditCategory) (s : List ComplianceFramework) :
    List ComplianceFramework :=
  if category = .security_event then
    fwUpdate s [.iso27001, .soc2, .nist] else s

/-- Fourth step: authentication events apply to SOC2, ISO27001 and
PCI-DSS. -/
def fwAuthStep (category : AuditCategory) (s : List ComplianceFramework) :
    List ComplianceFramework :=
  if category = .authentication then
    fwUpdate s [.soc2, .iso27001, .pci_dss] else s

/-- The framework set computed by
`AuditEvent._assign_compliance_frameworks` from the event's category,
target and current set: the four conditional additions in the order
the method performs them. -/
def derivedFrameworks (category : AuditCategory) (target : String)
    (s0 : List ComplianceFramework) : List ComplianceFramework :=
  fwAuthStep category
    (fwSecurityStep category (fwSoxStep category target (fwGdprStep category s0)))

/-- `AuditEvent._assign_compliance_frameworks`: automatically add the
relevant compliance frameworks implied by category and target. -/
def assignComplianceFrameworks (e : AuditEvent) : AuditEvent :=
  { e with compliance_frameworks :=
      derivedFrameworks e.category e.target e.compliance_frameworks }

/-- `AuditEvent.__post_init__`: replace a blank `event_id` by a fresh
uuid (passed in as `fresh`, since uuid generation is external
randomness) and then derive the compliance frameworks. -/
def postInit (fresh : String) (e : AuditEvent) : AuditEvent :=
  assignComplianceFrameworks
    (if e.event_id = "" then { e with event_id := fresh } else e)

/-- Filter configuration (`AuditFilter.__init__` defaults).  `None`
and the empty set are both falsy in the guards of `should_log`, so
both are modelled as the empty list. -/
structure AuditFilter where
  min_level : AuditLevel := .info
  categories : List AuditCategory := []
  actors : List String := []
  exclude_actors : List String := []
  compliance_frameworks : List ComplianceFramework := []
  time_range : Option (Nat × Nat) := none
deriving DecidableEq, Repr

/-- The `level_priority` table used by `AuditFilter.should_log`. -/
def levelPriority : AuditLevel → Nat
  | .debug => 0
  | .info => 1
  | .warning => 2
  | .error => 3
  | .critical => 4
  | .security => 5
  | .compliance => 5

/-- `AuditFilter.should_log`: decide whether an event passes the
filter, checking minimum level, categories, actors, excluded actors,
compliance-framework intersection and inclusive time range in turn. -/
def should_log (f : AuditFilter) (e : AuditEvent) : Bool :=
  if levelPriority e.level < levelPriority f.min_level then false
  else if ¬ f.categories = [] ∧ ¬ e.category ∈ f.categories then false
  else if ¬ f.actors = [] ∧ ¬ e.actor ∈ f.actors then false
  else if e.actor ∈ f.exclude_actors then false
  else if ¬ f.compliance_frameworks = [] ∧
      ¬ (e.compliance_frameworks.any fun x => decide (x ∈ f.compliance_frameworks)) = true
    then false
  else
    match f.time_range with
    | some (start_time, end_time) =>
        decide (start_time ≤ e.timestamp ∧ e.timestamp ≤ end_time)
    | none => true

/-- A single on-disk audit log file: its modification time and its
lines, each line being either a record that decodes to an event
(`some e`) or a malformed/corrupted line (`none`). -/
structure AuditFile where
  mtime : Nat
  lines : List (Option AuditEvent)
deriving DecidableEq, Repr

/-- Stable insertion step for sorting files by modification time,
newest first (Python `list.sort(key=mtime, reverse=True)` is stable:
an earlier file stays before later files with equal mtime). -/
def insertByMtimeDesc (f : AuditFile) : List AuditFile → List AuditFile
  | [] => [f]
  | g :: gs =>
    if g.mtime ≤ f.mtime then f :: g :: gs else g :: insertByMtimeDesc f gs

/-- Sort files by modification time, newest first, stably. -/
def sortFilesDesc : List AuditFile → List AuditFile
  | [] => []
  | f :: fs => insertByMtimeDesc f (sortFilesDesc fs)

/-- Whether an event passes an optional filter: `retrieve_events`
keeps an event `if not filter or filter.should_log(event)`. -/
def accepts (filt : Option AuditFilter) (e : AuditEvent) : Bool :=
  match filt with
  | none => true
  | some f => should_log f e

/-- Inner loop of `FileAuditStorage.retrieve_events` over the lines of
one file: stop once `limit` events are collected, skip malformed
lines, keep accepted events in the order the lines occur. -/
def collectFromLines (filt : Option AuditFilter) (limit : Nat) :
    List (Option AuditEvent) → List AuditEvent → List AuditEvent
  | [], acc => acc
  | l :: ls, acc =>
    if limit ≤ acc.length then acc
    else
      match l with
      | none => collectFromLines filt limit ls acc
      | some e =>
        if accepts filt e then collectFromLines filt limit ls (acc ++ [e])
        else collectFromLines filt limit ls acc

/-- Outer loop of `FileAuditStorage.retrieve_events` over the files
(already sorted newest-mtime first). -/
def collectFromFiles (filt : Option AuditFilter) (limit : Nat) :
    List AuditFile → List AuditEvent → List AuditEvent
  | [], acc => acc
  | f :: fs, acc =>
    if limit ≤ acc.length then acc
    else collectFromFiles filt limit fs (collectFromLines filt limit f.lines acc)

/-- `FileAuditStorage.retrieve_events`: sort the log files by
modification time newest first, then scan their lines in file order,
collecting accepted events until `limit` is reached. -/
def fileRetrieveEvents (st : List AuditFile) (filt : Option AuditFilter)
    (limit : Nat) : List AuditEvent :=
  collectFromFiles filt limit (sortFilesDesc st) []

/-- One file's contribution to `FileAuditStorage.get_event_count`:
decodable lines whose event passes the filter. -/
def countFileEvents (filt : Option AuditFilter) (f : AuditFile) : Nat :=
  ((f.lines.filterMap id).filter (accepts filt)).length

/-- `FileAuditStorage.get_event_count`: scan every log file (no
sorting, no limit) and count the accepted, decodable records. -/
def fileGetEventCount (st : List AuditFile) (filt : Option AuditFilter) : Nat :=
  st.foldl (fun c f => c + countFileEvents filt f) 0

/-- `FileAuditStorage.cleanup_old_events`: unlink every log file whose
modification time is strictly before `olderThan`, returning how many
files were removed together with the remaining state. -/
def fileCleanupOldEvents (st : List AuditFile) (olderThan : Nat) :
    Nat × List AuditFile :=
  match st with
  | [] => (0, [])
  | f :: fs =>
    let r := fileCleanupOldEvents fs olderThan
    if f.mtime < olderThan then (r.1 + 1, r.2) else (r.1, f :: r.2)

/-- Number of decodable stored events whose timestamp is strictly
before `t` (what the cleanup claim counts). -/
def storedEventsBefore (st : List AuditFile) (t : Nat) : Nat :=
  ((st.flatMap (fun f => f.lines.filterMap id)).filter
    (fun e => e.timestamp < t)).length

/-- Body of the `try` block of `FileAuditStorage.store_event`: append
the serialized event as one line to the current file (the head of the
state; an empty state opens a fresh file), refreshing its modification
time.  The fault oracle `ioError` stands for any I/O failure inside
the block (rotation, open, write), surfaced as a raised exception. -/
def fileStoreEventRaw (ioError : Bool) (now : Nat) (st : List AuditFile)
    (e : AuditEvent) : Except String (Bool × List AuditFile) :=
  if ioError then .error "I/O failure"
  else
    match st with
    | [] => .ok (true, [⟨now, [some e]⟩])
    | f :: fs => .ok (true, ⟨now, f.lines ++ [some e]⟩ :: fs)

/-- `FileAuditStorage.store_event`: the `try/except` wrapper around
the body — any raised error is logged and reported as `False`, with
the state unchanged. -/
def fileStoreEvent (ioError : Bool) (now : Nat) (st : List AuditFile)
    (e : AuditEvent) : Bool × List AuditFile :=
  match fileStoreEventRaw ioError now st e with
  | .ok r => r
  | .error _ => (false, st)

/-- Decimal digits of `n`, least significant first (empty for 0). -/
def toRevDigits : Nat → List Nat
  | 0 => []
  | n + 1 => ((n + 1) % 10) :: toRevDigits ((n + 1) / 10)
decreasing_by exact Nat.div_lt_self (Nat.succ_pos n) (by norm_num)

/-- Value of a least-significant-first digit list. -/
def ofRevDigits : List Nat → Nat
  | [] => 0
  | d :: ds => d + 10 * ofRevDigits ds




/-- ASCII digit character of `d` (meaningful for `d < 10`). -/
def digitToChar (d : Nat) : Char := Char.ofNat (48 + d)

/-- Inverse of `digitToChar`: decode an ASCII digit character. -/
def charToDigit (c : Char) : Option Nat :=
  if 48 ≤ c.toNat ∧ c.toNat ≤ 57 then some (c.toNat - 48) else none


/-- Model of `datetime.isoformat`: render the UTC instant as its
decimal digit string (an injective, order-isomorphic stand-in for the
fixed-width ISO-8601 text the code produces). -/
def isoformat (n : Nat) : String :=
  if n = 0 then "0" else String.mk ((toRevDigits n).reverse.map digitToChar)

/-- Decode a character list as decimal digits (all-or-nothing). -/
def parseDigits : List Char → Option (List Nat)
  | [] => some []
  | c :: cs =>
    match charToDigit c, parseDigits cs with
    | some d, some ds => some (d :: ds)
    | _, _ => none

/-- Model of `datetime.fromisoformat`: parse the digit string back. -/
def fromisoformat (s : String) : Option Nat :=
  match s.toList with
  | [] => none
  | cs => (parseDigits cs).map (fun ds => ofRevDigits ds.reverse)



/-- The dictionary produced by `AuditEvent.to_dict`, as a typed record
over its fixed key set: enums replaced by their string tags, the
timestamp by its `isoformat` text, and the framework set by an array
of tags in the set's iteration order.  `to_json` is `json.dumps` of
this dictionary with a fixed key order, which is injective on this
record, so the record itself stands for the canonical serialization. -/
structure EventDict where
  event_id : String
  timestamp : String
  level : String
  category : String
  action : String
  actor : String
  target : String
  result : String
  message : String
  details : List (String × JsonPrim)
  source_ip : Option String
  user_agent : Option String
  session_id : Option String
  correlation_id : Option String
  compliance_frameworks : List String
  risk_score : Int
  sensitive_data : Bool
deriving DecidableEq, Repr

/-- `AuditEvent.to_dict`. -/
def toDict (e : AuditEvent) : EventDict where
  event_id := e.event_id
  timestamp := isoformat e.timestamp
  level := e.level.value
  category := e.category.value
  action := e.action.value
  actor := e.actor
  target := e.target
  result := e.result
  message := e.message
  details := e.details
  source_ip := e.source_ip
  user_agent := e.user_agent
  session_id := e.session_id
  correlation_id := e.correlation_id
  compliance_frameworks := e.compliance_frameworks.map ComplianceFramework.value
  risk_score := e.risk_score
  sensitive_data := e.sensitive_data

/-- `AuditEvent.calculate_checksum`: SHA-256 of the canonical
serialization.  The hash is modelled as the serialization itself (an
injective stand-in); every checksum statement proved below is an
equality, which transfers to any deterministic hash of it. -/
def calculate_checksum (e : AuditEvent) : EventDict := toDict e

/-- Inverse of `AuditLevel.value` (`AuditLevel(s)` in Python,
`None` standing for the raised `ValueError`). -/
def AuditLevel.ofValue : String → Option AuditLevel
  | "debug" => some .debug
  | "info" => some .info
  | "warning" => some .warning
  | "error" => some .error
  | "critical" => some .critical
  | "security" => some .security
  | "compliance" => some .compliance
  | _ => none

/-- Inverse of `AuditCategory.value`. -/
def AuditCategory.ofValue : String → Option AuditCategory
  | "authentication" => some .authentication
  | "authorization" => some .authorization
  | "data_access" => some .data_access
  | "data_modification" => some .data_modification
  | "system_configuration" => some .system_configuration
  | "user_management" => some .user_management
  | "security_event" => some .security_event
  | "compliance_event" => some .compliance_event
  | "business_process" => some .business_process
  | "network_activity" => some .network_activity
  | "file_system" => some .file_system
  | "database" => some .database
  | "api_call" => some .api_call
  | "performance" => some .performance
  | "error_event" => some .error_event
  | _ => none

/-- Inverse of `AuditAction.value`. -/
def AuditAction.ofValue : String → Option AuditAction
  | "create" => some .create
  | "read" => some .read
  | "update" => some .update
  | "delete" => some .delete
  | "login" => some .login
  | "logout" => some .logout
  | "access_granted" => some .access_granted
  | "access_denied" => some .access_denied
  | "permission_changed" => some .permission_changed
  | "configuration_changed" => some .configuration_changed
  | "password_changed" => some .password_changed
  | "account_locked" => some .account_locked
  | "account_unlocked" => some .account_unlocked
  | "backup_created" => some .backup_created
  | "backup_restored" => some .backup_restored
  | "system_startup" => some .system_startup
  | "system_shutdown" => some .system_shutdown
  | "export" => some .export
  | "import" => some .imp
  | "approve" => some .approve
  | "reject" => some .reject
  | _ => none

/-- Inverse of `ComplianceFramework.value`. -/
def ComplianceFramework.ofValue : String → Option ComplianceFramework
  | "sox" => some .sox
  | "gdpr" => some .gdpr
  | "hipaa" => some .hipaa
  | "pci_dss" => some .pci_dss
  | "iso27001" => some .iso27001
  | "soc2" => some .soc2
  | "fisma" => some .fisma
  | "nist" => some .nist
  | "cobit" => some .cobit
  | _ => none

/-- Parse a list of framework tags (all-or-nothing, a raised
`ValueError` on any bad tag modelled as `none`). -/
def parseFrameworks : List String → Option (List ComplianceFramework)
  | [] => some []
  | s :: ss =>
    match ComplianceFramework.ofValue s, parseFrameworks ss with
    | some f, some fs => some (f :: fs)
    | _, _ => none

/-- `FileAuditStorage._dict_to_event`: convert the string tags back to
enums, parse the timestamp, rebuild the framework set (a Python set
comprehension, modelled by folding `set.add` over the parsed tags) and
construct `AuditEvent(**data)`, which re-runs `__post_init__`. -/
def dictToEvent (fresh : String) (d : EventDict) : Option AuditEvent := do
  let lv ← AuditLevel.ofValue d.level
  let cat ← AuditCategory.ofValue d.category
  let act ← AuditAction.ofValue d.action
  let ts ← fromisoformat d.timestamp
  let fws ← parseFrameworks d.compliance_frameworks
  pure (postInit fresh
    { event_id := d.event_id
      timestamp := ts
      level := lv
      category := cat
      action := act
      actor := d.actor
      target := d.target
      result := d.result
      message := d.message
      details := d.details
      source_ip := d.source_ip
      user_agent := d.user_agent
      session_id := d.session_id
      correlation_id := d.correlation_id
      compliance_frameworks := fws.foldl fwAdd []
      risk_score := d.risk_score
      sensitive_data := d.sensitive_data })

/-- One row of the `audit_events` table.  The TEXT `timestamp` column
holds the ISO-8601 rendering, whose lexicographic order coincides with
the chronological order, so it is modelled by the instant itself;
`details` and `compliance_frameworks` hold JSON-encoded text, modelled
by the decoded values; `checksum` holds the stored integrity hash. -/
structure DbRow where
  event_id : String
  timestamp : Nat
  level : String
  category : String
  action : String
  actor : String
  target : String
  result : String
  message : String
  details : List (String × JsonPrim)
  source_ip : Option String
  user_agent : Option String
  session_id : Option String
  correlation_id : Option String
  compliance_frameworks : List String
  risk_score : Int
  sensitive_data : Bool
  checksum : EventDict
deriving DecidableEq, Repr

/-- The row inserted for an event by `DatabaseAuditStorage.store_event`. -/
def rowOfEvent (e : AuditEvent) : DbRow where
  event_id := e.event_id
  timestamp := e.timestamp
  level := e.level.value
  category := e.category.value
  action := e.action.value
  actor := e.actor
  target := e.target
  result := e.result
  message := e.message
  details := e.details
  source_ip := e.source_ip
  user_agent := e.user_agent
  session_id := e.session_id
  correlation_id := e.correlation_id
  compliance_frameworks := e.compliance_frameworks.map ComplianceFramework.value
  risk_score := e.risk_score
  sensitive_data := e.sensitive_data
  checksum := calculate_checksum e

/-- Body of the `try` block of `DatabaseAuditStorage.store_event`:
INSERT the row, raising on any database failure — including the
PRIMARY KEY violation on a duplicate `event_id`. -/
def dbStoreEventRaw (ioError : Bool) (rows : List DbRow) (e : AuditEvent) :
    Except String (Bool × List DbRow) :=
  if ioError then .error "database failure"
  else if rows.any (fun r => r.event_id == e.event_id) then
    .error "UNIQUE constraint failed"
  else .ok (true, rows ++ [rowOfEvent e])

/-- `DatabaseAuditStorage.store_event`: the `try/except` wrapper —
every raised error is logged and reported as `False`. -/
def dbStoreEvent (ioError : Bool) (rows : List DbRow) (e : AuditEvent) :
    Bool × List DbRow :=
  match dbStoreEventRaw ioError rows e with
  | .ok r => r
  | .error _ => (false, rows)

/-- The hand-rolled `level_hierarchy` table of
`DatabaseAuditStorage.retrieve_events`, with its UPPER-CASE names. -/
def levelHierarchy : AuditLevel → List String
  | .debug =>
      ["COMPLIANCE", "SECURITY", "CRITICAL", "ERROR", "WARNING", "INFO", "DEBUG"]
  | .info => ["COMPLIANCE", "SECURITY", "CRITICAL", "ERROR", "WARNING", "INFO"]
  | .warning => ["COMPLIANCE", "SECURITY", "CRITICAL", "ERROR", "WARNING"]
  | .error => ["COMPLIANCE", "SECURITY", "CRITICAL", "ERROR"]
  | .critical => ["COMPLIANCE", "SECURITY", "CRITICAL"]
  | .security => ["COMPLIANCE", "SECURITY"]
  | .compliance => ["COMPLIANCE"]

/-- The WHERE clause built by `DatabaseAuditStorage.retrieve_events`
for a filter: the five-slot `level IN` test against the (truncated)
hierarchy names, plus category, actor and BETWEEN conditions. -/
def dbRowMatches (f : AuditFilter) (r : DbRow) : Bool :=
  decide (r.level ∈ (levelHierarchy f.min_level).take 5) &&
  (f.categories.isEmpty ||
    decide (r.category ∈ f.categories.map AuditCategory.value)) &&
  (f.actors.isEmpty || decide (r.actor ∈ f.actors)) &&
  (match f.time_range with
   | some (start_time, end_time) =>
       decide (start_time ≤ r.timestamp) && decide (r.timestamp ≤ end_time)
   | none => true)

/-- Stable insertion step for `ORDER BY timestamp DESC`. -/
def insertByTsDesc (r : DbRow) : List DbRow → List DbRow
  | [] => [r]
  | s :: ss => if s.timestamp ≤ r.timestamp then r :: s :: ss
      else s :: insertByTsDesc r ss

/-- Sort rows by timestamp, newest first. -/
def sortRowsDesc : List DbRow → List DbRow
  | [] => []
  | r :: rs => insertByTsDesc r (sortRowsDesc rs)

/-- `DatabaseAuditStorage._row_to_event`: rebuild the event from a
row (dropping the checksum column), re-running `__post_init__`;
`none` models the `ValueError` raised on an unknown tag. -/
def rowToEvent (fresh : String) (r : DbRow) : Option AuditEvent := do
  let lv ← AuditLevel.ofValue r.level
  let cat ← AuditCategory.ofValue r.category
  let act ← AuditAction.ofValue r.action
  let fws ← parseFrameworks r.compliance_frameworks
  pure (postInit fresh
    { event_id := r.event_id
      timestamp := r.timestamp
      level := lv
      category := cat
      action := act
      actor := r.actor
      target := r.target
      result := r.result
      message := r.message
      details := r.details
      source_ip := r.source_ip
      user_agent := r.user_agent
      session_id := r.session_id
      correlation_id := r.correlation_id
      compliance_frameworks := fws.foldl fwAdd []
      risk_score := r.risk_score
      sensitive_data := r.sensitive_data })

/-- Convert every fetched row, all-or-nothing: the conversion loop of
`retrieve_events` runs inside its `try`, so one bad row aborts the
whole read. -/
def rowsToEvents (fresh : String) : List DbRow → Option (List AuditEvent)
  | [] => some []
  | r :: rs =>
    match rowToEvent fresh r, rowsToEvents fresh rs with
    | some e, some es => some (e :: es)
    | _, _ => none

/-- `DatabaseAuditStorage.retrieve_events`.  With a filter present the
query always includes the `level IN (?, ?, ?, ?, ?)` clause (an enum
member is always truthy); when the hierarchy list for `min_level` has
fewer than five names the statement has more placeholders than bound
parameters and `execute` raises, which the outer `except` turns into
`[]`.  Otherwise the WHERE clause selects rows, `ORDER BY timestamp
DESC LIMIT ?` applies, and the rows are converted (one conversion
failure aborts to `[]`). -/
def dbRetrieveEvents (fresh : String) (rows : List DbRow)
    (filt : Option AuditFilter) (limit : Nat) : List AuditEvent :=
  match filt with
  | none =>
    match rowsToEvents fresh ((sortRowsDesc rows).take limit) with
    | some es => es
    | none => []
  | some f =>
    if (levelHierarchy f.min_level).length < 5 then []
    else
      match rowsToEvents fresh
          ((sortRowsDesc (rows.filter (dbRowMatches f))).take limit) with
      | some es => es
      | none => []

/-- `DatabaseAuditStorage.get_event_count`: `SELECT COUNT(*)` with a
WHERE clause built ONLY from the category and actor criteria — the
filter's `min_level`, `compliance_frameworks` and `time_range` are not
translated for the count query. -/
def dbGetEventCount (rows : List DbRow) (filt : Option AuditFilter) : Nat :=
  match filt with
  | none => rows.length
  | some f =>
    (rows.filter (fun r =>
      (f.categories.isEmpty ||
        decide (r.category ∈ f.categories.map AuditCategory.value)) &&
      (f.actors.isEmpty || decide (r.actor ∈ f.actors)))).length

/-- `DatabaseAuditStorage.cleanup_old_events`: DELETE the rows whose
timestamp column is strictly below `olderThan`, returning the
`rowcount` together with the remaining table. -/
def dbCleanupOldEvents (rows : List DbRow) (olderThan : Nat) :
    Nat × List DbRow :=
  match rows with
  | [] => (0, [])
  | r :: rs =>
    let rest := dbCleanupOldEvents rs olderThan
    if r.timestamp < olderThan then (rest.1 + 1, rest.2)
    else (rest.1, r :: rest.2)

/-- The keyword arguments `log_event` forwards into the `AuditEvent`
constructor, with the dataclass defaults. -/
structure ExtraFields where
  details : List (String × JsonPrim) := []
  source_ip : Option String := none
  user_agent : Option String := none
  session_id : Option String := none
  correlation_id : Option String := none
  compliance_frameworks : List ComplianceFramework := []
  risk_score : Int := 0
  sensitive_data : Bool := false
deriving DecidableEq, Repr

/-- The event `log_event` constructs: a fresh uuid, the current UTC
instant, the seven positional fields and the keyword extras, run
through `__post_init__`. -/
def buildEvent (uuid : String) (now : Nat) (level : AuditLevel)
    (category : AuditCategory) (action : AuditAction)
    (actor target result message : String) (extra : ExtraFields) : AuditEvent :=
  postInit uuid
    { event_id := uuid
      timestamp := now
      level := level
      category := category
      action := action
      actor := actor
      target := target
      result := result
      message := message
      details := extra.details
      source_ip := extra.source_ip
      user_agent := extra.user_agent
      session_id := extra.session_id
      correlation_id := extra.correlation_id
      compliance_frameworks := extra.compliance_frameworks
      risk_score := extra.risk_score
      sensitive_data := extra.sensitive_data }

/-- The filter loop of `log_event`: returns `false` at the first
filter whose `should_log` rejects (triggering the early `return`). -/
def applyFilters : List AuditFilter → AuditEvent → Bool
  | [], _ => true
  | f :: fs, e => if should_log f e then applyFilters fs e else false

/-- Logger configuration relevant to `log_event`: the registered
filters, the registered handlers (each tagged with whether its
invocation raises — such exceptions are caught and logged), the
delivery mode, and the queue bound (`queue.Queue(maxsize)`; a bound of
0 means unbounded, as in Python). -/
structure LoggerCfg where
  filters : List AuditFilter := []
  handlers : List Bool := []
  async_logging : Bool := true
  queue_size : Nat := 10000
deriving DecidableEq, Repr

/-- Observable outcome of one `log_event` call: the returned id, how
many registered handlers were invoked, the event placed on the async
queue (if any) and the event stored synchronously (if any). -/
structure LogEventResult where
  returned_id : String
  handlers_invoked : Nat
  enqueued : Option AuditEvent
  stored_sync : Option AuditEvent
deriving DecidableEq, Repr

/-- `AuditLogger.log_event`: construct the event; if any registered
filter rejects, return its `event_id` immediately (no handlers, no
storage).  Otherwise invoke every handler (exceptions caught), then
either `put_nowait` the event on the bounded queue — dropping it with
a logged error when the queue is full — or call `store_event`
synchronously; finally return the `event_id`. -/
def logEvent (cfg : LoggerCfg) (queueLen : Nat) (uuid : String) (now : Nat)
    (level : AuditLevel) (category : AuditCategory) (action : AuditAction)
    (actor target result message : String) (extra : ExtraFields) :
    LogEventResult :=
  let e := buildEvent uuid now level category action actor target result
    message extra
  if applyFilters cfg.filters e then
    if cfg.async_logging then
      if cfg.queue_size = 0 ∨ queueLen < cfg.queue_size then
        { returned_id := e.event_id
          handlers_invoked := cfg.handlers.length
          enqueued := some e
          stored_sync := none }
      else
        { returned_id := e.event_id
          handlers_invoked := cfg.handlers.length
          enqueued := none
          stored_sync := none }
    else
      { returned_id := e.event_id
        handlers_invoked := cfg.handlers.length
        enqueued := none
        stored_sync := some e }
  else
    { returned_id := e.event_id
      handlers_invoked := 0
      enqueued := none
      stored_sync := none }

/-- Success state reached by the body of `FileAuditStorage.store_event`:
one line appended to the current file, whose mtime becomes `now`. -/
def fileAppendCurrent (now : Nat) (st : List AuditFile) (e : AuditEvent) :
    List AuditFile :=
  match st with
  | [] => [⟨now, [some e]⟩]
  | f :: fs => ⟨now, f.lines ++ [some e]⟩ :: fs

/-- The stream `FileAuditStorage.retrieve_events` draws from: files in
newest-mtime-first order, each file's decodable lines in write order,
restricted to the events the filter accepts. -/
def acceptedStream (st : List AuditFile) (filt : Option AuditFilter) :
    List AuditEvent :=
  ((sortFilesDesc st).flatMap (fun f => f.lines.filterMap id)).filter
    (accepts filt)

/-- The conjunction of the non-severity checks of
`AuditFilter.should_log` (categories, actors, excluded actors,
framework intersection, time range). -/
def restChecks (f : AuditFilter) (e : AuditEvent) : Bool :=
  (f.categories.isEmpty || decide (e.category ∈ f.categories)) &&
  (f.actors.isEmpty || decide (e.actor ∈ f.actors)) &&
  !(decide (e.actor ∈ f.exclude_actors)) &&
  (f.compliance_frameworks.isEmpty ||
    e.compliance_frameworks.any (fun x => decide (x ∈ f.compliance_frameworks))) &&
  (match f.time_range with
   | some (start_time, end_time) =>
       decide (start_time ≤ e.timestamp ∧ e.timestamp ≤ end_time)
   | none => true)

/-- Code-point lexicographic order on character lists (Python's string
comparison). -/
def charsLe : List Char → List Char → Bool
  | [], _ => true
  | _ :: _, [] => false
  | a :: as, b :: bs =>
    if a.toNat < b.toNat then true
    else if b.toNat < a.toNat then false
    else charsLe as bs

/-- Whether a list of strings is in ascending lexicographic order. -/
def isSortedAsc : List String → Bool
  | [] => true
  | [_] => true
  | a :: b :: t => charsLe a.toList b.toList && isSortedAsc (b :: t)

/-- The event constructed by `AuditLogger.log_authentication`. -/
def logAuthenticationEvent (uuid : String) (now : Nat)
    (actor result : String) (extra : ExtraFields) : AuditEvent :=
  buildEvent uuid now .security .authentication
    (if result = "success" then .login else .access_denied)
    actor "authentication_system" result
    ("Authentication " ++ result ++ " for " ++ actor) extra

/-- The failed-login test of `AuditLogger.generate_audit_report`:
`e.action == ACCESS_DENIED and e.category == AUTHENTICATION`. -/
def isFailedLogin (e : AuditEvent) : Bool :=
  decide (e.action = .access_denied) && decide (e.category = .authentication)

/-- Sample event: first of two sequential `log_event` calls. -/
def sampleEventOne : AuditEvent :=
  buildEvent "evt-1" 1 .info .api_call .read "alice" "svc" "success" "first" {}

/-- Sample event: second of two sequential `log_event` calls. -/
def sampleEventTwo : AuditEvent :=
  buildEvent "evt-2" 2 .info .api_call .read "alice" "svc" "success" "second" {}

/-- Sample event at DEBUG level. -/
def sampleDebugEvent : AuditEvent :=
  buildEvent "evt-d" 3 .debug .api_call .read "bob" "svc" "success" "dbg" {}

/-- Sample event with timestamp 20 (later than the cleanup cutoffs
used below). -/
def sampleLateEvent : AuditEvent :=
  buildEvent "evt-l" 20 .info .api_call .read "carol" "svc" "success" "late" {}

/-- Sample data-access event seeded with a SOX tag, so that GDPR is
appended after it by the derivation. -/
def sampleUnsortedEvent : AuditEvent :=
  buildEvent "evt-9" 5 .info .data_access .read "alice" "customer_db" "success"
    "read 1 row" { compliance_frameworks := [.sox] }

/-- Sample raw constructor input with a blank id and no frameworks. -/
def sampleRawEvent : AuditEvent :=
  { event_id := ""
    timestamp := 5
    level := .info
    category := .data_access
    action := .read
    actor := "alice"
    target := "db"
    result := "success"
    message := "m" }

/-- File-backend state after two sequential synchronous stores into
one (current) log file. -/
def sampleFileState : List AuditFile :=
  (fileStoreEvent false 2
    (fileStoreEvent false 1 [⟨0, []⟩] sampleEventOne).2 sampleEventTwo).2

/-- One log file of mtime 5 holding the two sample events. -/
def sampleCleanupState : List AuditFile :=
  [⟨5, [some sampleEventOne, some sampleEventTwo]⟩]

/-- A filter whose only non-default criterion is a time range. -/
def sampleTimeFilter : AuditFilter := { time_range := some (10, 20) }

/-- An async logger with a bounded queue of capacity one. -/
def sampleFullQueueCfg : LoggerCfg :=
  { filters := [], handlers := [], async_logging := true, queue_size := 1 }

/-- A synchronous logger with one default filter and one handler. -/
def sampleSyncCfg : LoggerCfg :=
  { filters := [{}], handlers := [false], async_logging := false,
    queue_size := 5 }

theorem ofRevDigits_toRevDigits (n : Nat) : ofRevDigits (toRevDigits n) = n := by
  induction n using Nat.strong_induction_on with
  | _ n ih =>
    match n with
    | 0 => simp [toRevDigits, ofRevDigits]
    | m + 1 =>
      rw [toRevDigits, ofRevDigits,
        ih ((m + 1) / 10) (Nat.div_lt_self (Nat.succ_pos m) (by norm_num))]
      exact Nat.mod_add_div (m + 1) 10

theorem toRevDigits_lt_ten (n : Nat) : ∀ d ∈ toRevDigits n, d < 10 := by
  induction n using Nat.strong_induction_on with
  | _ n ih =>
    match n with
    | 0 => intro d hd; simp [toRevDigits] at hd
    | m + 1 =>
      intro d hd
      rw [toRevDigits] at hd
      rcases List.mem_cons.mp hd with h | h
      · subst h; exact Nat.mod_lt _ (by norm_num)
      · exact ih ((m + 1) / 10) (Nat.div_lt_self (Nat.succ_pos m) (by norm_num)) d h

theorem toRevDigits_ne_nil (n : Nat) (h : n ≠ 0) : toRevDigits n ≠ [] := by
  match n with
  | 0 => exact absurd rfl h
  | m + 1 => rw [toRevDigits]; exact List.cons_ne_nil _ _

theorem charToDigit_digitToChar : ∀ d < 10, charToDigit (digitToChar d) = some d := by
  decide

theorem parseDigits_map (ds : List Nat) (h : ∀ d ∈ ds, d < 10) :
    parseDigits (ds.map digitToChar) = some ds := by
  induction ds with
  | nil => rfl
  | cons d ds ih =>
    have hd : charToDigit (digitToChar d) = some d :=
      charToDigit_digitToChar d (h d (List.mem_cons_self d ds))
    have ht := ih (fun x hx => h x (List.mem_cons_of_mem d hx))
    simp [parseDigits, hd, ht]

theorem fromisoformat_isoformat (n : Nat) : fromisoformat (isoformat n) = some n := by
  by_cases h : n = 0
  · subst h; rfl
  · have hchars : (isoformat n).toList = (toRevDigits n).reverse.map digitToChar := by
      simp [isoformat, h, String.toList]
    have hne : (toRevDigits n).reverse.map digitToChar ≠ [] := by
      simp [toRevDigits_ne_nil n h]
    have hdig : ∀ d ∈ (toRevDigits n).reverse, d < 10 := by
      intro d hd
      exact toRevDigits_lt_ten n d (List.mem_reverse.mp hd)
    have hmap := parseDigits_map (toRevDigits n).reverse hdig
    unfold fromisoformat
    rw [hchars]
    match hcs : (toRevDigits n).reverse.map digitToChar, hmap with
    | [], _ => exact absurd hcs hne
    | c :: cs, hmap =>
      show Option.map (fun ds => ofRevDigits ds.reverse) (parseDigits (c :: cs))
        = some n
      rw [hmap]
      simp [List.reverse_reverse, ofRevDigits_toRevDigits n]

theorem mem_fwAdd_self (s : List ComplianceFramework) (x : ComplianceFramework) :
    x ∈ fwAdd s x := by
  unfold fwAdd
  split
  · assumption
  · simp

theorem mem_fwAdd_of_mem {s : List ComplianceFramework}
    {x : ComplianceFramework} (y : ComplianceFramework) (h : x ∈ s) :
    x ∈ fwAdd s y := by
  unfold fwAdd
  split
  · exact h
  · exact List.mem_append_left _ h

theorem fwAdd_of_mem {s : List ComplianceFramework} {x : ComplianceFramework}
    (h : x ∈ s) : fwAdd s x = s := by
  unfold fwAdd
  exact if_pos h

theorem mem_fwUpdate_of_mem {s : List ComplianceFramework}
    {x : ComplianceFramework} (fs : List ComplianceFramework) (h : x ∈ s) :
    x ∈ fwUpdate s fs := by
  induction fs generalizing s with
  | nil => exact h
  | cons a fs ih => exact ih (mem_fwAdd_of_mem a h)

theorem mem_fwUpdate_of_mem_arg {s fs : List ComplianceFramework}
    {x : ComplianceFramework} (h : x ∈ fs) : x ∈ fwUpdate s fs := by
  induction fs generalizing s with
  | nil => cases h
  | cons a fs ih =>
    rcases List.mem_cons.mp h with h | h
    · subst h
      exact mem_fwUpdate_of_mem fs (mem_fwAdd_self s x)
    · exact ih h

theorem fwUpdate_of_forall_mem {s fs : List ComplianceFramework}
    (h : ∀ x ∈ fs, x ∈ s) : fwUpdate s fs = s := by
  induction fs with
  | nil => rfl
  | cons a fs ih =>
    have ha : fwAdd s a = s := fwAdd_of_mem (h a (List.mem_cons_self a fs))
    show fwUpdate (fwAdd s a) fs = s
    rw [ha]
    exact ih (fun x hx => h x (List.mem_cons_of_mem a hx))

theorem fwAdd_nodup {s : List ComplianceFramework} (x : ComplianceFramework)
    (h : s.Nodup) : (fwAdd s x).Nodup := by
  unfold fwAdd
  split
  · exact h
  · next hx => simpa [List.nodup_append] using ⟨h, hx⟩

theorem fwUpdate_nodup {s : List ComplianceFramework}
    (fs : List ComplianceFramework) (h : s.Nodup) : (fwUpdate s fs).Nodup := by
  induction fs generalizing s with
  | nil => exact h
  | cons a fs ih => exact ih (fwAdd_nodup a h)

theorem mem_ite_fwAdd {p : Prop} [Decidable p] {s : List ComplianceFramework}
    {x y : ComplianceFramework} (h : x ∈ s) :
    x ∈ (if p then fwAdd s y else s) := by
  split
  · exact mem_fwAdd_of_mem y h
  · exact h

theorem mem_ite_fwUpdate {p : Prop} [Decidable p]
    {s fs : List ComplianceFramework} {x : ComplianceFramework} (h : x ∈ s) :
    x ∈ (if p then fwUpdate s fs else s) := by
  split
  · exact mem_fwUpdate_of_mem fs h
  · exact h

theorem mem_fwGdprStep_of_mem {s : List ComplianceFramework}
    {x : ComplianceFramework} (c : AuditCategory) (h : x ∈ s) :
    x ∈ fwGdprStep c s := mem_ite_fwAdd h

theorem mem_fwSoxStep_of_mem {s : List ComplianceFramework}
    {x : ComplianceFramework} (c : AuditCategory) (t : String) (h : x ∈ s) :
    x ∈ fwSoxStep c t s := mem_ite_fwAdd h

theorem mem_fwSecurityStep_of_mem {s : List ComplianceFramework}
    {x : ComplianceFramework} (c : AuditCategory) (h : x ∈ s) :
    x ∈ fwSecurityStep c s := mem_ite_fwUpdate h

theorem mem_fwAuthStep_of_mem {s : List ComplianceFramework}
    {x : ComplianceFramework} (c : AuditCategory) (h : x ∈ s) :
    x ∈ fwAuthStep c s := mem_ite_fwUpdate h

theorem mem_derivedFrameworks_of_mem {s : List ComplianceFramework}
    {x : ComplianceFramework} (c : AuditCategory) (t : String) (h : x ∈ s) :
    x ∈ derivedFrameworks c t s :=
  mem_fwAuthStep_of_mem c (mem_fwSecurityStep_of_mem c
    (mem_fwSoxStep_of_mem c t (mem_fwGdprStep_of_mem c h)))

theorem fwGdprStep_of_cond {s : List ComplianceFramework} {c : AuditCategory}
    (h : c = .data_access ∨ c = .data_modification → ComplianceFramework.gdpr ∈ s) :
    fwGdprStep c s = s := by
  unfold fwGdprStep
  split
  · next hc => exact fwAdd_of_mem (h hc)
  · rfl

theorem fwSoxStep_of_cond {s : List ComplianceFramework} {c : AuditCategory}
    {t : String}
    (h : strContains (strLower t) "financial" = true ∨
      c = .system_configuration → ComplianceFramework.sox ∈ s) :
    fwSoxStep c t s = s := by
  unfold fwSoxStep
  split
  · next hc => exact fwAdd_of_mem (h hc)
  · rfl

theorem fwSecurityStep_of_cond {s : List ComplianceFramework}
    {c : AuditCategory}
    (h : c = .security_event → ∀ x ∈ ([.iso27001, .soc2, .nist] :
      List ComplianceFramework), x ∈ s) :
    fwSecurityStep c s = s := by
  unfold fwSecurityStep
  split
  · next hc => exact fwUpdate_of_forall_mem (h hc)
  · rfl

theorem fwAuthStep_of_cond {s : List ComplianceFramework} {c : AuditCategory}
    (h : c = .authentication → ∀ x ∈ ([.soc2, .iso27001, .pci_dss] :
      List ComplianceFramework), x ∈ s) :
    fwAuthStep c s = s := by
  unfold fwAuthStep
  split
  · next hc => exact fwUpdate_of_forall_mem (h hc)
  · rfl

theorem gdpr_mem_derivedFrameworks {s : List ComplianceFramework}
    {c : AuditCategory} (t : String)
    (h : c = .data_access ∨ c = .data_modification) :
    ComplianceFramework.gdpr ∈ derivedFrameworks c t s := by
  apply mem_fwAuthStep_of_mem
  apply mem_fwSecurityStep_of_mem
  apply mem_fwSoxStep_of_mem
  unfold fwGdprStep
  rw [if_pos h]
  exact mem_fwAdd_self s .gdpr

theorem sox_mem_derivedFrameworks {s : List ComplianceFramework}
    {c : AuditCategory} {t : String}
    (h : strContains (strLower t) "financial" = true ∨
      c = .system_configuration) :
    ComplianceFramework.sox ∈ derivedFrameworks c t s := by
  apply mem_fwAuthStep_of_mem
  apply mem_fwSecurityStep_of_mem
  show ComplianceFramework.sox ∈ fwSoxStep c t (fwGdprStep c s)
  unfold fwSoxStep
  rw [if_pos h]
  exact mem_fwAdd_self _ .sox

theorem security_mem_derivedFrameworks {s : List ComplianceFramework}
    {c : AuditCategory} (t : String) {x : ComplianceFramework}
    (h : c = .security_event)
    (hx : x ∈ ([.iso27001, .soc2, .nist] : List ComplianceFramework)) :
    x ∈ derivedFrameworks c t s := by
  apply mem_fwAuthStep_of_mem
  show x ∈ fwSecurityStep c (fwSoxStep c t (fwGdprStep c s))
  unfold fwSecurityStep
  rw [if_pos h]
  exact mem_fwUpdate_of_mem_arg hx

theorem auth_mem_derivedFrameworks {s : List ComplianceFramework}
    {c : AuditCategory} (t : String) {x : ComplianceFramework}
    (h : c = .authentication)
    (hx : x ∈ ([.soc2, .iso27001, .pci_dss] : List ComplianceFramework)) :
    x ∈ derivedFrameworks c t s := by
  show x ∈ fwAuthStep c (fwSecurityStep c (fwSoxStep c t (fwGdprStep c s)))
  unfold fwAuthStep
  rw [if_pos h]
  exact mem_fwUpdate_of_mem_arg hx

theorem derivedFrameworks_idem (c : AuditCategory) (t : String)
    (s : List ComplianceFramework) :
    derivedFrameworks c t (derivedFrameworks c t s) = derivedFrameworks c t s := by
  show fwAuthStep c (fwSecurityStep c (fwSoxStep c t
    (fwGdprStep c (derivedFrameworks c t s)))) = derivedFrameworks c t s
  rw [fwGdprStep_of_cond (fun hc => gdpr_mem_derivedFrameworks t hc),
    fwSoxStep_of_cond (fun hc => sox_mem_derivedFrameworks hc),
    fwSecurityStep_of_cond
      (fun hc x hx => security_mem_derivedFrameworks t hc hx),
    fwAuthStep_of_cond (fun hc x hx => auth_mem_derivedFrameworks t hc hx)]

theorem derivedFrameworks_nodup {s : List ComplianceFramework}
    (c : AuditCategory) (t : String) (h : s.Nodup) :
    (derivedFrameworks c t s).Nodup := by
  show (fwAuthStep c (fwSecurityStep c (fwSoxStep c t (fwGdprStep c s)))).Nodup
  have h1 : (fwGdprStep c s).Nodup := by
    unfold fwGdprStep
    split
    · exact fwAdd_nodup _ h
    · exact h
  have h2 : (fwSoxStep c t (fwGdprStep c s)).Nodup := by
    unfold fwSoxStep
    split
    · exact fwAdd_nodup _ h1
    · exact h1
  have h3 : (fwSecurityStep c (fwSoxStep c t (fwGdprStep c s))).Nodup := by
    unfold fwSecurityStep
    split
    · exact fwUpdate_nodup _ h2
    · exact h2
  unfold fwAuthStep
  split
  · exact fwUpdate_nodup _ h3
  · exact h3

/-- Characterization of `__post_init__`: the constructed event is the
input with its `event_id` defaulted and its framework set re-derived;
every other field is untouched. -/
theorem postInit_eq (fresh : String) (e : AuditEvent) :
    postInit fresh e =
      { e with
        event_id := if e.event_id = "" then fresh else e.event_id
        compliance_frameworks :=
          derivedFrameworks e.category e.target e.compliance_frameworks } := by
  unfold postInit assignComplianceFrameworks
  split
  · rfl
  · rfl

theorem auditLevel_ofValue_value (l : AuditLevel) :
    AuditLevel.ofValue l.value = some l := by
  cases l <;> rfl

theorem auditCategory_ofValue_value (c : AuditCategory) :
    AuditCategory.ofValue c.value = some c := by
  cases c <;> rfl

theorem auditAction_ofValue_value (a : AuditAction) :
    AuditAction.ofValue a.value = some a := by
  cases a <;> rfl

theorem complianceFramework_ofValue_value (f : ComplianceFramework) :
    ComplianceFramework.ofValue f.value = some f := by
  cases f <;> rfl

theorem parseFrameworks_map_value (fs : List ComplianceFramework) :
    parseFrameworks (fs.map ComplianceFramework.value) = some fs := by
  induction fs with
  | nil => rfl
  | cons f fs ih =>
    simp [parseFrameworks, complianceFramework_ofValue_value, ih]

theorem foldl_fwAdd_of_nodup_aux (fs : List ComplianceFramework) :
    ∀ acc : List ComplianceFramework, fs.Nodup → (∀ x ∈ fs, x ∉ acc) →
      fs.foldl fwAdd acc = acc ++ fs := by
  induction fs with
  | nil => intro acc _ _; simp
  | cons f fs ih =>
    intro acc hnd hdisj
    have hf : f ∉ acc := hdisj f (List.mem_cons_self f fs)
    have step : fwAdd acc f = acc ++ [f] := by
      unfold fwAdd
      rw [if_neg hf]
    show fs.foldl fwAdd (fwAdd acc f) = acc ++ f :: fs
    rw [step, ih (acc ++ [f]) (List.Nodup.of_cons hnd)]
    · simp
    · intro x hx
      rw [List.mem_append]
      rintro (hxa | hxf)
      · exact hdisj x (List.mem_cons_of_mem f hx) hxa
      · rw [List.mem_singleton] at hxf
        subst hxf
        exact (List.nodup_cons.mp hnd).1 hx

theorem foldl_fwAdd_of_nodup {fs : List ComplianceFramework} (h : fs.Nodup) :
    fs.foldl fwAdd [] = fs := by
  have := foldl_fwAdd_of_nodup_aux fs [] h (by intro x _ hx; cases hx)
  simpa using this

/-- Round trip of `to_dict` followed by `_dict_to_event` for any event
in the image of the constructor (duplicate-free framework set and a
non-blank id): the original event is recovered exactly. -/
theorem dictToEvent_toDict (fresh : String) (e : AuditEvent)
    (hid : e.event_id ≠ "")
    (hnd : e.compliance_frameworks.Nodup)
    (hfix : assignComplianceFrameworks e = e) :
    dictToEvent fresh (toDict e) = some e := by
  unfold dictToEvent toDict
  rw [auditLevel_ofValue_value, auditCategory_ofValue_value,
    auditAction_ofValue_value, fromisoformat_isoformat,
    parseFrameworks_map_value]
  show some (postInit fresh
    { event_id := e.event_id
      timestamp := e.timestamp
      level := e.level
      category := e.category
      action := e.action
      actor := e.actor
      target := e.target
      result := e.result
      message := e.message
      details := e.details
      source_ip := e.source_ip
      user_agent := e.user_agent
      session_id := e.session_id
      correlation_id := e.correlation_id
      compliance_frameworks := e.compliance_frameworks.foldl fwAdd []
      risk_score := e.risk_score
      sensitive_data := e.sensitive_data }) = some e
  rw [foldl_fwAdd_of_nodup hnd]
  congr 1
  rw [postInit_eq]
  have : { e with
      event_id := if e.event_id = "" then fresh else e.event_id
      compliance_frameworks :=
        derivedFrameworks e.category e.target e.compliance_frameworks } =
      assignComplianceFrameworks e := by
    unfold assignComplianceFrameworks
    rw [if_neg hid]
  rw [this, hfix]

/-- `should_log` factors as the severity gate conjoined with the
remaining checks: an event passes iff its level's priority is at least
the filter's minimum priority and every other criterion holds. -/
theorem should_log_factor (f : AuditFilter) (e : AuditEvent) :
    should_log f e =
      (decide (levelPriority f.min_level ≤ levelPriority e.level) &&
        restChecks f e) := by
  unfold should_log restChecks
  by_cases h1 : levelPriority e.level < levelPriority f.min_level
  · simp [h1, Nat.not_le_of_lt h1]
  · rw [if_neg h1]
    have h1' : levelPriority f.min_level ≤ levelPriority e.level :=
      Nat.le_of_not_lt h1
    by_cases h2 : ¬ f.categories = [] ∧ ¬ e.category ∈ f.categories
    · simp [h2, h1', List.isEmpty_iff, h2.1, h2.2]
    · rw [if_neg h2]
      push_neg at h2
      by_cases h3 : ¬ f.actors = [] ∧ ¬ e.actor ∈ f.actors
      · rw [if_pos h3]
        rw [decide_eq_true h1', Bool.true_and]
        simp [List.isEmpty_iff, h3.1, h3.2]
      · rw [if_neg h3]
        push_neg at h3
        by_cases h4 : e.actor ∈ f.exclude_actors
        · simp [h4]
        · rw [if_neg h4]
          by_cases h5 : ¬ f.compliance_frameworks = [] ∧
              ¬ (e.compliance_frameworks.any fun x =>
                decide (x ∈ f.compliance_frameworks)) = true
          · rw [if_pos h5]
            rw [decide_eq_true h1', Bool.true_and]
            simp [List.isEmpty_iff, h5.1, h5.2, h4]
          · rw [if_neg h5]
            push_neg at h5
            have hcat : (f.categories.isEmpty ||
                decide (e.category ∈ f.categories)) = true := by
              rcases Classical.em (f.categories = []) with hc | hc
              · simp [hc]
              · simp [List.isEmpty_iff, hc, h2 hc]
            have hact : (f.actors.isEmpty ||
                decide (e.actor ∈ f.actors)) = true := by
              rcases Classical.em (f.actors = []) with hc | hc
              · simp [hc]
              · simp [List.isEmpty_iff, hc, h3 hc]
            have hfw : (f.compliance_frameworks.isEmpty ||
                e.compliance_frameworks.any fun x =>
                  decide (x ∈ f.compliance_frameworks)) = true := by
              rcases Classical.em (f.compliance_frameworks = []) with hc | hc
              · simp [hc]
              · simp [List.isEmpty_iff, hc, h5 hc]
            rw [hcat, hact, hfw]
            simp [h1', h4]

/-- An all-default filter (`AuditFilter()`) accepts exactly the events
whose level priority reaches the INFO default. -/
theorem should_log_default (e : AuditEvent) :
    should_log {} e = decide (1 ≤ levelPriority e.level) := by
  rw [should_log_factor]
  show (decide (levelPriority .info ≤ levelPriority e.level) &&
    restChecks {} e) = decide (1 ≤ levelPriority e.level)
  have : restChecks {} e = true := by
    unfold restChecks
    simp [List.isEmpty_iff]
  rw [this, Bool.and_true]
  rfl

/-- The filter loop of `log_event` computes the ALL-filters
conjunction. -/
theorem applyFilters_eq_all (fs : List AuditFilter) (e : AuditEvent) :
    applyFilters fs e = fs.all (fun f => should_log f e) := by
  induction fs with
  | nil => rfl
  | cons f fs ih =>
    unfold applyFilters
    by_cases h : should_log f e
    · simp [h, ih]
    · simp only [Bool.not_eq_true] at h
      simp [h]

theorem collectFromLines_eq (filt : Option AuditFilter) (limit : Nat)
    (ls : List (Option AuditEvent)) :
    ∀ acc : List AuditEvent,
      collectFromLines filt limit ls acc =
        acc ++ ((ls.filterMap id).filter (accepts filt)).take
          (limit - acc.length) := by
  induction ls with
  | nil => intro acc; simp [collectFromLines]
  | cons l ls ih =>
    intro acc
    unfold collectFromLines
    by_cases hl : limit ≤ acc.length
    · rw [if_pos hl]
      have : limit - acc.length = 0 := Nat.sub_eq_zero_of_le hl
      rw [this]
      simp
    · rw [if_neg hl]
      have hlt : acc.length < limit := Nat.lt_of_not_le hl
      have hsucc : limit - acc.length = (limit - (acc.length + 1)) + 1 := by
        omega
      match l with
      | none =>
        show collectFromLines filt limit ls acc = _
        rw [ih acc]
        simp
      | some e =>
        by_cases ha : accepts filt e
        · show (if accepts filt e = true then
              collectFromLines filt limit ls (acc ++ [e])
            else collectFromLines filt limit ls acc) = _
          rw [if_pos ha, ih (acc ++ [e])]
          have hfm : (List.filterMap id (some e :: ls)).filter (accepts filt) =
              e :: (ls.filterMap id).filter (accepts filt) := by
            simp [List.filterMap_cons, List.filter_cons, ha]
          rw [hfm, hsucc, List.take_succ_cons]
          simp
        · simp only [Bool.not_eq_true] at ha
          show (if accepts filt e = true then
              collectFromLines filt limit ls (acc ++ [e])
            else collectFromLines filt limit ls acc) = _
          rw [if_neg (by simp [ha]), ih acc]
          have hfm : (List.filterMap id (some e :: ls)).filter (accepts filt) =
              (ls.filterMap id).filter (accepts filt) := by
            simp [List.filterMap_cons, List.filter_cons, ha]
          rw [hfm]

theorem collectFromFiles_eq (filt : Option AuditFilter) (limit : Nat)
    (fs : List AuditFile) :
    ∀ acc : List AuditEvent,
      collectFromFiles filt limit fs acc =
        acc ++ ((fs.flatMap (fun f => f.lines.filterMap id)).filter
          (accepts filt)).take (limit - acc.length) := by
  induction fs with
  | nil => intro acc; simp [collectFromFiles]
  | cons f fs ih =>
    intro acc
    unfold collectFromFiles
    by_cases hl : limit ≤ acc.length
    · rw [if_pos hl]
      have : limit - acc.length = 0 := Nat.sub_eq_zero_of_le hl
      rw [this]
      simp
    · rw [if_neg hl]
      rw [collectFromLines_eq, ih]
      set A := (f.lines.filterMap id).filter (accepts filt) with hA
      set R := ((fs.flatMap (fun g => g.lines.filterMap id)).filter
        (accepts filt)) with hR
      have hsplit : ((f :: fs).flatMap (fun g => g.lines.filterMap id)).filter
          (accepts filt) = A ++ R := by
        simp [List.flatMap_cons, List.filter_append, hA, hR]
      rw [hsplit]
      set k := limit - acc.length with hk
      have hlen : (acc ++ A.take k).length =
          acc.length + min k A.length := by
        simp [List.length_take]
      have harith : limit - (acc ++ A.take k).length = k - A.length := by
        rw [hlen]
        omega
      rw [List.append_assoc, harith, List.take_append_eq_append_take]

/-- `retrieve_events` of the file backend equals the accepted stream
truncated at the limit. -/
theorem fileRetrieveEvents_eq (st : List AuditFile)
    (filt : Option AuditFilter) (limit : Nat) :
    fileRetrieveEvents st filt limit = (acceptedStream st filt).take limit := by
  unfold fileRetrieveEvents acceptedStream
  rw [collectFromFiles_eq]
  simp

theorem insertByMtimeDesc_flat_length (g : AuditFile → List AuditEvent)
    (f : AuditFile) (l : List AuditFile) :
    ((insertByMtimeDesc f l).flatMap g).length = ((f :: l).flatMap g).length := by
  induction l with
  | nil => rfl
  | cons h t ih =>
    unfold insertByMtimeDesc
    split
    · rfl
    · simp only [List.flatMap_cons, List.length_append] at ih ⊢
      omega

theorem sortFilesDesc_flat_length (g : AuditFile → List AuditEvent)
    (st : List AuditFile) :
    ((sortFilesDesc st).flatMap g).length = (st.flatMap g).length := by
  induction st with
  | nil => rfl
  | cons f fs ih =>
    show ((insertByMtimeDesc f (sortFilesDesc fs)).flatMap g).length = _
    rw [insertByMtimeDesc_flat_length]
    simp only [List.flatMap_cons, List.length_append] at ih ⊢
    omega

theorem fileGetEventCount_aux (filt : Option AuditFilter)
    (st : List AuditFile) :
    ∀ n : Nat, st.foldl (fun c f => c + countFileEvents filt f) n =
      n + ((st.flatMap (fun f => f.lines.filterMap id)).filter
        (accepts filt)).length := by
  induction st with
  | nil => intro n; simp
  | cons f fs ih =>
    intro n
    show fs.foldl _ (n + countFileEvents filt f) = _
    rw [ih]
    unfold countFileEvents
    simp [List.flatMap_cons, List.filter_append]
    omega

/-- `get_event_count` of the file backend counts the accepted,
decodable records across all files. -/
theorem fileGetEventCount_eq (st : List AuditFile)
    (filt : Option AuditFilter) :
    fileGetEventCount st filt = (acceptedStream st filt).length := by
  unfold fileGetEventCount acceptedStream
  rw [fileGetEventCount_aux]
  have hpush : ∀ l : List AuditFile,
      (l.flatMap (fun f => f.lines.filterMap id)).filter (accepts filt) =
        l.flatMap (fun f => (f.lines.filterMap id).filter (accepts filt)) := by
    intro l
    induction l with
    | nil => rfl
    | cons a t ih => simp [List.flatMap_cons, List.filter_append, ih]
  rw [hpush, hpush,
    sortFilesDesc_flat_length
      (fun f => (f.lines.filterMap id).filter (accepts filt)) st]
  omega

theorem fileCleanupOldEvents_eq (st : List AuditFile) (t : Nat) :
    fileCleanupOldEvents st t =
      ((st.filter (fun f => decide (f.mtime < t))).length,
        st.filter (fun f => !decide (f.mtime < t))) := by
  induction st with
  | nil => rfl
  | cons f fs ih =>
    unfold fileCleanupOldEvents
    rw [ih]
    by_cases h : f.mtime < t
    · simp [List.filter_cons, h]
    · simp [List.filter_cons, h]

theorem dbCleanupOldEvents_eq (rows : List DbRow) (t : Nat) :
    dbCleanupOldEvents rows t =
      ((rows.filter (fun r => decide (r.timestamp < t))).length,
        rows.filter (fun r => !decide (r.timestamp < t))) := by
  induction rows with
  | nil => rfl
  | cons r rs ih =>
    unfold dbCleanupOldEvents
    rw [ih]
    by_cases h : r.timestamp < t
    · simp [List.filter_cons, h]
    · simp [List.filter_cons, h]

theorem filter_not_filter_eq_nil {α : Type} (p : α → Bool) (l : List α) :
    (l.filter (fun a => !p a)).filter p = [] := by
  induction l with
  | nil => rfl
  | cons a t ih =>
    by_cases h : p a
    · simp [List.filter_cons, h, ih]
    · simp only [Bool.not_eq_true] at h
      simp [List.filter_cons, h, ih]

/-- The stored `level` column of any real row is the lowercase tag,
which never appears in the UPPER-CASE `level_hierarchy` slot list, so
the level clause of the indexed-backend query matches no stored row. -/
theorem level_value_not_mem_hierarchy (lv min_level : AuditLevel) :
    AuditLevel.value lv ∉ (levelHierarchy min_level).take 5 := by
  cases lv <;> cases min_level <;> decide

theorem dbRowMatches_rowOfEvent (f : AuditFilter) (e : AuditEvent) :
    dbRowMatches f (rowOfEvent e) = false := by
  unfold dbRowMatches
  have : decide ((rowOfEvent e).level ∈ (levelHierarchy f.min_level).take 5) =
      false := by
    apply decide_eq_false
    exact level_value_not_mem_hierarchy e.level f.min_level
  rw [this]
  simp

theorem filter_dbRowMatches_map_rowOfEvent (f : AuditFilter)
    (events : List AuditEvent) :
    (events.map rowOfEvent).filter (dbRowMatches f) = [] := by
  induction events with
  | nil => rfl
  | cons e es ih =>
    simp [List.filter_cons, dbRowMatches_rowOfEvent, ih]

/-- With any filter at all, the indexed backend's `retrieve_events`
returns the empty list on any table of genuinely stored rows: for
min_level DEBUG/INFO/WARNING the level clause compares lowercase
stored tags against five UPPER-CASE names and selects nothing, and for
the four higher minimum levels the five placeholders get fewer than
five bound parameters, so `execute` raises and the handler returns
`[]`. -/
theorem dbRetrieveEvents_some_eq_nil (fresh : String)
    (events : List AuditEvent) (f : AuditFilter) (limit : Nat) :
    dbRetrieveEvents fresh (events.map rowOfEvent) (some f) limit = [] := by
  unfold dbRetrieveEvents
  show (if (levelHierarchy f.min_level).length < 5 then ([] : List AuditEvent)
    else
      match rowsToEvents fresh
          ((sortRowsDesc ((events.map rowOfEvent).filter
            (dbRowMatches f))).take limit) with
      | some es => es
      | none => []) = []
  by_cases h : (levelHierarchy f.min_level).length < 5
  · rw [if_pos h]
  · rw [if_neg h, filter_dbRowMatches_map_rowOfEvent]
    simp [sortRowsDesc, rowsToEvents]

/-- C2: the compliance-framework derivation performed at construction
is a deterministic pure function of the event's category, target and
current framework set; re-running the derivation on an already-derived
event changes nothing (idempotence); the derivation never removes a
framework already present (monotonicity); and every constructed event
of category data_access or data_modification contains GDPR. -/
theorem c2_compliance_derivation :
    (∀ e1 e2 : AuditEvent, e1.category = e2.category → e1.target = e2.target →
      e1.compliance_frameworks = e2.compliance_frameworks →
      (assignComplianceFrameworks e1).compliance_frameworks =
        (assignComplianceFrameworks e2).compliance_frameworks) ∧
    (∀ e : AuditEvent,
      assignComplianceFrameworks (assignComplianceFrameworks e) =
        assignComplianceFrameworks e) ∧
    (∀ (e : AuditEvent) (x : ComplianceFramework),
      x ∈ e.compliance_frameworks →
      x ∈ (assignComplianceFrameworks e).compliance_frameworks) ∧
    (∀ (fresh : String) (e : AuditEvent),
      e.category = .data_access ∨ e.category = .data_modification →
      ComplianceFramework.gdpr ∈ (postInit fresh e).compliance_frameworks) := by
  refine ⟨?_, ?_, ?_, ?_⟩
  · intro e1 e2 hc ht hf
    show derivedFrameworks e1.category e1.target e1.compliance_frameworks =
      derivedFrameworks e2.category e2.target e2.compliance_frameworks
    rw [hc, ht, hf]
  · intro e
    simp only [assignComplianceFrameworks]
    rw [derivedFrameworks_idem]
  · intro e x hx
    exact mem_derivedFrameworks_of_mem e.category e.target hx
  · intro fresh e hc
    rw [postInit_eq]
    exact gdpr_mem_derivedFrameworks e.target hc

/-- Witness for C2 at concrete inputs: the determinism hypothesis at a
concrete pair, monotonicity for the seeded SOX tag, and GDPR presence
for a concrete data-access construction. -/
theorem c2_witness :
    ((assignComplianceFrameworks sampleRawEvent).compliance_frameworks =
      (assignComplianceFrameworks sampleRawEvent).compliance_frameworks) ∧
    (ComplianceFramework.sox ∈ sampleUnsortedEvent.compliance_frameworks ∧
      ComplianceFramework.sox ∈
        (assignComplianceFrameworks sampleUnsortedEvent).compliance_frameworks) ∧
    ((sampleRawEvent.category = .data_access ∨
      sampleRawEvent.category = .data_modification) ∧
      ComplianceFramework.gdpr ∈
        (postInit "uuid-1" sampleRawEvent).compliance_frameworks) := by
  have hcfw : sampleUnsortedEvent.compliance_frameworks = [.sox, .gdpr] := by
    rfl
  have hmono : ComplianceFramework.sox ∈ sampleUnsortedEvent.compliance_frameworks := by
    rw [hcfw]
    exact List.mem_cons_self _ _
  have hcat : sampleRawEvent.category = .data_access ∨
      sampleRawEvent.category = .data_modification := Or.inl (by decide)
  exact ⟨c2_compliance_derivation.1 sampleRawEvent sampleRawEvent rfl rfl rfl,
    ⟨hmono, c2_compliance_derivation.2.2.1 sampleUnsortedEvent .sox hmono⟩,
    ⟨hcat, c2_compliance_derivation.2.2.2 "uuid-1" sampleRawEvent hcat⟩⟩

/-- C5 counterexample: the all-default filter (`AuditFilter()`, every
criterion left unset) REJECTS a debug-level event, because
`min_level` defaults to INFO — contradicting the claim that such a
filter accepts every event including debug. -/
theorem c5_counterexample : should_log {} sampleDebugEvent = false := by
  decide

/-- C5 (amended): `should_log` is deterministic (a pure function of
the filter/event pair), and a filter with every criterion unset has
`min_level` defaulting to INFO, so it accepts exactly the events whose
level priority is at least 1 — every level except debug. -/
theorem c5_default_filter :
    (∀ (f : AuditFilter) (e : AuditEvent), should_log f e = should_log f e) ∧
    (∀ e : AuditEvent, should_log {} e = decide (1 ≤ levelPriority e.level)) :=
  ⟨fun _ _ => rfl, should_log_default⟩

/-- C8: `should_log` uses the fixed priorities debug=0, info=1,
warning=2, error=3, critical=4, security=5, compliance=5; an event is
rejected by the severity gate exactly when its level's priority is
strictly below the filter's minimum priority (the whole predicate
factors as the severity gate ANDed with the remaining checks); and
security and compliance tie at the top, so a filter whose only
criterion is `min_level=SECURITY` behaves identically to one with
`min_level=COMPLIANCE`. -/
theorem c8_severity_order :
    (levelPriority .debug = 0 ∧ levelPriority .info = 1 ∧
      levelPriority .warning = 2 ∧ levelPriority .error = 3 ∧
      levelPriority .critical = 4 ∧ levelPriority .security = 5 ∧
      levelPriority .compliance = 5) ∧
    (∀ (f : AuditFilter) (e : AuditEvent),
      should_log f e =
        (decide (levelPriority f.min_level ≤ levelPriority e.level) &&
          restChecks f e)) ∧
    (∀ (f : AuditFilter) (e : AuditEvent),
      levelPriority e.level < levelPriority f.min_level →
      should_log f e = false) ∧
    (∀ e : AuditEvent,
      should_log { min_level := .security } e =
        should_log { min_level := .compliance } e) := by
  refine ⟨⟨rfl, rfl, rfl, rfl, rfl, rfl, rfl⟩, should_log_factor, ?_, ?_⟩
  · intro f e h
    rw [should_log_factor, decide_eq_false (Nat.not_le_of_lt h),
      Bool.false_and]
  · intro e
    rw [should_log_factor, should_log_factor]
    rfl

/-- Witness for C8: the severity-rejection hypothesis discharged at a
concrete pair — a SECURITY-minimum filter rejects a debug event. -/
theorem c8_witness :
    levelPriority sampleDebugEvent.level <
      levelPriority (AuditFilter.min_level { min_level := .security }) ∧
    should_log { min_level := .security } sampleDebugEvent = false :=
  ⟨by decide,
    c8_severity_order.2.2.1 { min_level := .security } sampleDebugEvent
      (by decide)⟩

/-- C10: `log_authentication` always constructs an event with level
SECURITY, category AUTHENTICATION and target "authentication_system",
whose action is LOGIN exactly when the result string is "success" and
ACCESS_DENIED otherwise; consequently the event matches the
failed-login test of `generate_audit_report` exactly when the result
is not "success". -/
theorem c10_log_authentication :
    ∀ (uuid : String) (now : Nat) (actor result : String)
      (extra : ExtraFields),
      (logAuthenticationEvent uuid now actor result extra).level = .security ∧
      (logAuthenticationEvent uuid now actor result extra).category =
        .authentication ∧
      (logAuthenticationEvent uuid now actor result extra).target =
        "authentication_system" ∧
      (logAuthenticationEvent uuid now actor result extra).action =
        (if result = "success" then .login else .access_denied) ∧
      isFailedLogin (logAuthenticationEvent uuid now actor result extra) =
        !(decide (result = "success")) := by
  intro uuid now actor result extra
  unfold logAuthenticationEvent buildEvent
  rw [postInit_eq]
  refine ⟨rfl, rfl, rfl, rfl, ?_⟩
  unfold isFailedLogin
  by_cases h : result = "success"
  · simp [h]
  · simp [h]

/-- C1 counterexample: with asynchronous logging and a full bounded
queue (capacity 1, one event already queued), a call whose event
passes every registered filter still hands the event to storage
neither synchronously nor by enqueueing — it is dropped — refuting
the claim that all-filters-accepted implies the event is handed to
storage. -/
theorem c1_counterexample :
    applyFilters sampleFullQueueCfg.filters
      (buildEvent "u1" 7 .info .api_call .read "alice" "svc" "ok" "m" {}) =
      true ∧
    (logEvent sampleFullQueueCfg 1 "u1" 7 .info .api_call .read "alice" "svc"
      "ok" "m" {}).enqueued = none ∧
    (logEvent sampleFullQueueCfg 1 "u1" 7 .info .api_call .read "alice" "svc"
      "ok" "m" {}).stored_sync = none ∧
    (logEvent sampleFullQueueCfg 1 "u1" 7 .info .api_call .read "alice" "svc"
      "ok" "m" {}).returned_id = "u1" := by
  refine ⟨rfl, rfl, rfl, rfl⟩

/-- C1 (amended): `log_event` always returns the `event_id` of the
freshly constructed event; the filter loop computes the ALL-filters
conjunction; if any filter rejects, no handler is invoked and the
event is neither stored nor enqueued; if all accept, every registered
handler is invoked and the event is handed to storage — synchronously
when async logging is off, by enqueueing when async logging is on and
the bounded queue has room — except that with async logging and a full
queue the event is dropped (an error is logged) instead of being
enqueued. -/
theorem c1_log_event :
    ∀ (cfg : LoggerCfg) (queueLen : Nat) (uuid : String) (now : Nat)
      (level : AuditLevel) (category : AuditCategory) (action : AuditAction)
      (actor target result message : String) (extra : ExtraFields)
      (e : AuditEvent) (r : LogEventResult),
    e = buildEvent uuid now level category action actor target result message
      extra →
    r = logEvent cfg queueLen uuid now level category action actor target
      result message extra →
    r.returned_id = e.event_id ∧
    applyFilters cfg.filters e = cfg.filters.all (fun f => should_log f e) ∧
    (applyFilters cfg.filters e = false →
      r.handlers_invoked = 0 ∧ r.enqueued = none ∧ r.stored_sync = none) ∧
    (applyFilters cfg.filters e = true →
      r.handlers_invoked = cfg.handlers.length) ∧
    (applyFilters cfg.filters e = true → cfg.async_logging = false →
      r.stored_sync = some e ∧ r.enqueued = none) ∧
    (applyFilters cfg.filters e = true → cfg.async_logging = true →
      (cfg.queue_size = 0 ∨ queueLen < cfg.queue_size) →
      r.enqueued = some e ∧ r.stored_sync = none) ∧
    (applyFilters cfg.filters e = true → cfg.async_logging = true →
      ¬ (cfg.queue_size = 0 ∨ queueLen < cfg.queue_size) →
      r.enqueued = none ∧ r.stored_sync = none) := by
  intro cfg queueLen uuid now level category action actor target result
    message extra e r he hr
  subst he
  subst hr
  refine ⟨?_, applyFilters_eq_all _ _, ?_, ?_, ?_, ?_, ?_⟩
  · unfold logEvent
    dsimp only
    repeat' split
    all_goals rfl
  · intro hf
    simp [logEvent, hf]
  · intro hf
    unfold logEvent
    simp only [hf, if_true]
    split
    · split <;> rfl
    · rfl
  · intro hf ha
    simp [logEvent, hf, ha]
  · intro hf ha hq
    simp [logEvent, hf, ha, hq]
  · intro hf ha hq
    simp [logEvent, hf, ha, hq]

/-- Witness for C1 at concrete inputs: a logger with one default
filter in synchronous mode accepts an INFO event (all filters accept,
the handler count is forwarded, the event is stored synchronously),
discharging the accept-branch hypotheses of the amended theorem. -/
theorem c1_witness :
    applyFilters sampleSyncCfg.filters sampleEventOne = true ∧
    sampleSyncCfg.async_logging = false ∧
    (logEvent sampleSyncCfg 0 "evt-1" 1 .info .api_call .read "alice" "svc"
      "success" "first" {}).stored_sync = some sampleEventOne ∧
    (logEvent sampleSyncCfg 0 "evt-1" 1 .info .api_call .read "alice" "svc"
      "success" "first" {}).handlers_invoked = 1 := by
  have happ : applyFilters sampleSyncCfg.filters sampleEventOne = true := by
    decide
  have h := c1_log_event sampleSyncCfg 0 "evt-1" 1 .info .api_call .read
    "alice" "svc" "success" "first" {} sampleEventOne
    (logEvent sampleSyncCfg 0 "evt-1" 1 .info .api_call .read "alice" "svc"
      "success" "first" {}) rfl rfl
  exact ⟨happ, rfl, (h.2.2.2.2.1 happ rfl).1, h.2.2.2.1 happ⟩

/-- C6: for both backends, `store_event` is a total function of the
fault state: the body may raise (modelled by the `Raw` function's
error), but the `except` handler maps every failure to the boolean
`False` with the state unchanged, and success returns `True` with the
record appended — no exception ever escapes the call boundary.  For
the indexed backend a duplicate `event_id` (PRIMARY KEY violation) is
one of the caught failure modes. -/
theorem c6_store_event_total :
    (∀ (ioError : Bool) (now : Nat) (st : List AuditFile) (e : AuditEvent),
      fileStoreEventRaw ioError now st e =
        if ioError = true then .error "I/O failure"
        else .ok (true, fileAppendCurrent now st e)) ∧
    (∀ (ioError : Bool) (now : Nat) (st : List AuditFile) (e : AuditEvent),
      fileStoreEvent ioError now st e =
        if ioError = true then (false, st)
        else (true, fileAppendCurrent now st e)) ∧
    (∀ (ioError : Bool) (rows : List DbRow) (e : AuditEvent),
      dbStoreEvent ioError rows e =
        if (ioError || rows.any fun r => r.event_id == e.event_id) = true
        then (false, rows) else (true, rows ++ [rowOfEvent e])) := by
  refine ⟨?_, ?_, ?_⟩
  · intro ioError now st e
    cases ioError
    · cases st <;> rfl
    · rfl
  · intro ioError now st e
    cases ioError
    · cases st <;> rfl
    · rfl
  · intro ioError rows e
    cases ioError
    · by_cases hdup : (rows.any fun r => r.event_id == e.event_id) = true
      · simp [dbStoreEvent, dbStoreEventRaw, hdup]
      · simp only [Bool.not_eq_true] at hdup
        simp [dbStoreEvent, dbStoreEventRaw, hdup]
    · rfl

/-- C3 counterexample: two events logged sequentially into one file
are retrieved in call order (oldest first), not reverse call order;
and the indexed backend with the all-default filter — which accepts
the stored INFO event — returns the empty list. -/
theorem c3_counterexample :
    fileRetrieveEvents sampleFileState none 10 =
      [sampleEventOne, sampleEventTwo] ∧
    fileRetrieveEvents sampleFileState none 10 ≠
      [sampleEventTwo, sampleEventOne] ∧
    should_log {} sampleEventOne = true ∧
    dbRetrieveEvents "u" [rowOfEvent sampleEventOne] (some {}) 10 = [] := by
  refine ⟨by decide, by decide, by decide, ?_⟩
  exact dbRetrieveEvents_some_eq_nil "u" [sampleEventOne] {} 10

/-- C3 (amended): the file backend's `retrieve_events` equals the
accepted stream truncated at `limit` — files are visited newest-mtime
first but each file's lines are read in write order (oldest first
within a file), malformed lines are skipped, every returned event is
accepted by the filter, and at most `limit` events are returned; the
indexed backend's `retrieve_events` with any filter returns the empty
list on stored rows, because its five-slot UPPER-CASE level clause
matches no stored lowercase tag (or raises a caught binding error for
the four highest minimum levels). -/
theorem c3_retrieve_order :
    (∀ (st : List AuditFile) (filt : Option AuditFilter) (limit : Nat),
      fileRetrieveEvents st filt limit = (acceptedStream st filt).take limit) ∧
    (∀ (st : List AuditFile) (filt : Option AuditFilter) (limit : Nat),
      (fileRetrieveEvents st filt limit).length ≤ limit) ∧
    (∀ (st : List AuditFile) (filt : Option AuditFilter) (limit : Nat)
      (e : AuditEvent),
      e ∈ fileRetrieveEvents st filt limit → accepts filt e = true) ∧
    (∀ (fresh : String) (events : List AuditEvent) (f : AuditFilter)
      (limit : Nat),
      dbRetrieveEvents fresh (events.map rowOfEvent) (some f) limit = []) := by
  refine ⟨fileRetrieveEvents_eq, ?_, ?_, dbRetrieveEvents_some_eq_nil⟩
  · intro st filt limit
    rw [fileRetrieveEvents_eq, List.length_take]
    exact min_le_left _ _
  · intro st filt limit e he
    rw [fileRetrieveEvents_eq] at he
    have hmem : e ∈ acceptedStream st filt := List.take_subset limit _ he
    exact (List.mem_filter.mp hmem).2

/-- Witness for C3's membership hypothesis at a concrete state: the
first stored event is returned and is accepted by the absent filter. -/
theorem c3_witness :
    sampleEventOne ∈ fileRetrieveEvents sampleFileState none 10 ∧
    accepts none sampleEventOne = true := by
  have hmem : sampleEventOne ∈ fileRetrieveEvents sampleFileState none 10 := by
    decide
  exact ⟨hmem, c3_retrieve_order.2.2.1 sampleFileState none 10 sampleEventOne
    hmem⟩

/-- C4 counterexample: the indexed backend counts a stored INFO event
that its own retrieval — and `should_log` — excludes: with a filter
whose time range excludes the event, `get_event_count` returns 1
while `retrieve_events` returns no events (the true match count is
0). -/
theorem c4_counterexample :
    dbGetEventCount [rowOfEvent sampleEventOne] (some sampleTimeFilter) = 1 ∧
    dbRetrieveEvents "u" [rowOfEvent sampleEventOne] (some sampleTimeFilter)
      10 = [] ∧
    should_log sampleTimeFilter sampleEventOne = false ∧
    (1 : Nat) ≠ 0 := by
  refine ⟨by decide, ?_, by decide, by decide⟩
  exact dbRetrieveEvents_some_eq_nil "u" [sampleEventOne] sampleTimeFilter 10

/-- C4 (amended): the file backend's `get_event_count` applies exactly
the `should_log` semantics of retrieval — it equals the length of the
accepted stream, hence the length of `retrieve_events(filter, limit)`
whenever `limit` is at least the match count; the indexed backend's
count translates ONLY the category and actor criteria, so it is
invariant under changes to the filter's `min_level`,
`compliance_frameworks` and `time_range`, and does not agree with its
retrieval in general. -/
theorem c4_count_semantics :
    (∀ (st : List AuditFile) (filt : Option AuditFilter),
      fileGetEventCount st filt = (acceptedStream st filt).length) ∧
    (∀ (st : List AuditFile) (filt : Option AuditFilter) (limit : Nat),
      fileGetEventCount st filt ≤ limit →
      fileGetEventCount st filt = (fileRetrieveEvents st filt limit).length) ∧
    (∀ (rows : List DbRow) (f g : AuditFilter),
      f.categories = g.categories → f.actors = g.actors →
      dbGetEventCount rows (some f) = dbGetEventCount rows (some g)) := by
  refine ⟨fileGetEventCount_eq, ?_, ?_⟩
  · intro st filt limit hle
    rw [fileGetEventCount_eq] at hle ⊢
    rw [fileRetrieveEvents_eq, List.length_take]
    omega
  · intro rows f g hc ha
    unfold dbGetEventCount
    dsimp only
    rw [hc, ha]

/-- Witness for C4 at concrete inputs: the two stored sample events
are all counted and retrieved under a sufficient limit, and the
indexed count ignores the time-range difference between the sample
time filter and the all-default filter. -/
theorem c4_witness :
    fileGetEventCount sampleFileState none ≤ 10 ∧
    fileGetEventCount sampleFileState none =
      (fileRetrieveEvents sampleFileState none 10).length ∧
    sampleTimeFilter.categories = AuditFilter.categories {} ∧
    sampleTimeFilter.actors = AuditFilter.actors {} ∧
    dbGetEventCount [rowOfEvent sampleEventOne] (some sampleTimeFilter) =
      dbGetEventCount [rowOfEvent sampleEventOne] (some {}) := by
  have h1 : fileGetEventCount sampleFileState none ≤ 10 := by decide
  exact ⟨h1, c4_count_semantics.2.1 sampleFileState none 10 h1, by decide,
    by decide,
    c4_count_semantics.2.2 [rowOfEvent sampleEventOne] sampleTimeFilter {}
      (by decide) (by decide)⟩

/-- C7 counterexample: a single log file of mtime 5 holding two events
with timestamps before the cutoff is removed whole — the call returns
1 (files removed), not 2 (events removed); and a file of mtime 5
holding only an event with timestamp 20 (not strictly before the
cutoff 10) is also removed, so the deletion is not 'exactly the events
strictly before T'. -/
theorem c7_counterexample :
    (fileCleanupOldEvents sampleCleanupState 10).1 = 1 ∧
    storedEventsBefore sampleCleanupState 10 = 2 ∧
    (1 : Nat) ≠ 2 ∧
    (fileCleanupOldEvents [⟨5, [some sampleLateEvent]⟩] 10).2 = [] ∧
    10 ≤ sampleLateEvent.timestamp := by
  refine ⟨by decide, by decide, by decide, by decide, by decide⟩

/-- C7 (amended): the indexed backend's cleanup deletes exactly the
rows whose timestamp is strictly before the cutoff, returns that
count, and is idempotent (an immediate second call deletes nothing and
returns 0); the file backend deletes whole FILES whose modification
time is strictly before the cutoff and returns the number of files
removed — not the number of events — and is idempotent at file
granularity. -/
theorem c7_cleanup :
    (∀ (st : List AuditFile) (t : Nat),
      fileCleanupOldEvents st t =
        ((st.filter (fun f => decide (f.mtime < t))).length,
          st.filter (fun f => !decide (f.mtime < t)))) ∧
    (∀ (st : List AuditFile) (t : Nat),
      (fileCleanupOldEvents (fileCleanupOldEvents st t).2 t).1 = 0) ∧
    (∀ (rows : List DbRow) (t : Nat),
      dbCleanupOldEvents rows t =
        ((rows.filter (fun r => decide (r.timestamp < t))).length,
          rows.filter (fun r => !decide (r.timestamp < t)))) ∧
    (∀ (rows : List DbRow) (t : Nat),
      (dbCleanupOldEvents (dbCleanupOldEvents rows t).2 t).1 = 0) ∧
    (∀ (rows : List DbRow) (t : Nat) (r : DbRow),
      r ∈ (dbCleanupOldEvents rows t).2 ↔ r ∈ rows ∧ ¬ r.timestamp < t) := by
  refine ⟨fileCleanupOldEvents_eq, ?_, dbCleanupOldEvents_eq, ?_, ?_⟩
  · intro st t
    rw [fileCleanupOldEvents_eq, fileCleanupOldEvents_eq,
      filter_not_filter_eq_nil]
    rfl
  · intro rows t
    rw [dbCleanupOldEvents_eq, dbCleanupOldEvents_eq,
      filter_not_filter_eq_nil]
    rfl
  · intro rows t r
    rw [dbCleanupOldEvents_eq]
    simp [List.mem_filter]

/-- C9 counterexample: the serialized framework array of a reachable
event is its set's iteration order, which is not sorted: a data-access
event seeded with SOX gains GDPR after it, serializing as
["sox", "gdpr"] — not a sorted array as the claim requires. -/
theorem c9_counterexample :
    (toDict sampleUnsortedEvent).compliance_frameworks = ["sox", "gdpr"] ∧
    isSortedAsc ((toDict sampleUnsortedEvent).compliance_frameworks) =
      false := by
  have h : (toDict sampleUnsortedEvent).compliance_frameworks =
      ["sox", "gdpr"] := by rfl
  refine ⟨h, ?_⟩
  rw [h]
  decide

/-- C9 (amended): serialization round-trips losslessly for every
constructed event (duplicate-free framework set, non-blank id):
deserializing `to_dict`'s output recovers the event exactly in every
field; enums are rendered as their string tags and the timestamp as
its string form, parsed back exactly; the framework set is rendered as
an array in the set's iteration order (not sorted); and the checksum
computed after the round trip equals the checksum computed before. -/
theorem c9_roundtrip :
    ∀ (fresh fresh2 : String) (e0 : AuditEvent),
      (postInit fresh e0).event_id ≠ "" →
      e0.compliance_frameworks.Nodup →
      dictToEvent fresh2 (toDict (postInit fresh e0)) =
        some (postInit fresh e0) ∧
      (toDict (postInit fresh e0)).level = (postInit fresh e0).level.value ∧
      (toDict (postInit fresh e0)).category =
        (postInit fresh e0).category.value ∧
      (toDict (postInit fresh e0)).action = (postInit fresh e0).action.value ∧
      (toDict (postInit fresh e0)).timestamp =
        isoformat (postInit fresh e0).timestamp ∧
      fromisoformat (toDict (postInit fresh e0)).timestamp =
        some (postInit fresh e0).timestamp ∧
      (toDict (postInit fresh e0)).compliance_frameworks =
        (postInit fresh e0).compliance_frameworks.map
          ComplianceFramework.value ∧
      (dictToEvent fresh2 (toDict (postInit fresh e0))).map
          calculate_checksum =
        some (calculate_checksum (postInit fresh e0)) := by
  intro fresh fresh2 e0 hid hnd
  have hfix : assignComplianceFrameworks (postInit fresh e0) =
      postInit fresh e0 := by
    rw [postInit_eq]
    unfold assignComplianceFrameworks
    dsimp only
    rw [derivedFrameworks_idem]
  have hnd2 : (postInit fresh e0).compliance_frameworks.Nodup := by
    rw [postInit_eq]
    dsimp only
    exact derivedFrameworks_nodup _ _ hnd
  have hrt := dictToEvent_toDict fresh2 (postInit fresh e0) hid hnd2 hfix
  refine ⟨hrt, rfl, rfl, rfl, rfl, fromisoformat_isoformat _, rfl, ?_⟩
  rw [hrt]
  rfl

/-- Witness for C9 at a concrete construction: a blank-id data-access
input gets the fresh uuid (non-blank) and an empty (duplicate-free)
framework seed, and the round trip recovers the constructed event. -/
theorem c9_witness :
    (postInit "uuid-9" sampleRawEvent).event_id ≠ "" ∧
    sampleRawEvent.compliance_frameworks.Nodup ∧
    dictToEvent "uuid-x" (toDict (postInit "uuid-9" sampleRawEvent)) =
      some (postInit "uuid-9" sampleRawEvent) := by
  have h1 : (postInit "uuid-9" sampleRawEvent).event_id ≠ "" := by decide
  have h2 : sampleRawEvent.compliance_frameworks.Nodup := by decide
  exact ⟨h1, h2, (c9_roundtrip "uuid-9" "uuid-x" sampleRawEvent h1 h2).1⟩

end AuditLog
